import Mathlib

/-!
Verification of the fee-estimation fragment of `hcwallet`
(`aiticketbuyer/feeest.go`): the window-based estimator
`findClosestFeeWindows` and the recent-block estimator `findTicketFeeBlocks`.

The Go code is embedded shallowly:

* `hcutil.Amount` is a 64-bit signed integer (`type Amount int64`); we use
  unbounded `Int` and apply `wrap64` exactly at the arithmetic operations the
  Go program performs on 64-bit values (subtraction, negation by `*= -1`,
  the running sum, quotients), so two's-complement overflow is modelled
  faithfully.
* The block heights in fee-info windows are `uint32`; the span subtraction
  wraps modulo `2 ^ 32` (`uint32sub`).
* The chain daemon (`t.hcdChainSvr`) is an external collaborator; it is
  modelled as a record of query functions returning `Except String _`
  (`nil`/non-`nil` Go errors).  The `Mean`/`Median` fee fields arrive as
  `float64` and are parsed by the external library function
  `hcutil.NewAmount`, which either fails or yields an integer `Amount`; each
  field is modelled directly by that parse result.
* Go multiple-value returns `(hcutil.Amount, error)` are modelled as
  `Amount × Option String`; `findTicketFeeBlocks` can additionally crash on
  an integer division by zero, so its outcome type `GoResult` has a
  distinguished `fault` constructor for the run-time panic.
-/

namespace HcWallet

/-- Model of `hcutil.Amount` (a 64-bit signed integer count of atoms):
unbounded `Int`, with `wrap64` applied where the program does 64-bit
arithmetic. -/
abbrev Amount := Int

/-- Two's-complement wrap-around of signed 64-bit arithmetic: the
representative of `x` modulo `2 ^ 64` lying in `[-2 ^ 63, 2 ^ 63)`. -/
def wrap64 (x : Int) : Int := (x + 2 ^ 63) % 2 ^ 64 - 2 ^ 63

/-- `uint32` subtraction `e - s` (wraps modulo `2 ^ 32`), used for the window
height span `EndHeight - StartHeight`. -/
def uint32sub (e s : Nat) : Nat := (e % 2 ^ 32 + 2 ^ 32 - s % 2 ^ 32) % 2 ^ 32

/-- `diffPeriodFee` (source `feeest.go`): statistics about a difficulty fee
period compared to the current difficulty period. -/
structure diffPeriodFee where
  difficulty : Amount
  difference : Amount
  fee : Amount
deriving DecidableEq

instance {ε α : Type} [DecidableEq ε] [DecidableEq α] : DecidableEq (Except ε α) := fun x y =>
  match x, y with
  | .ok a, .ok b =>
    if h : a = b then isTrue (by rw [h]) else isFalse (fun hc => h (Except.ok.inj hc))
  | .error a, .error b =>
    if h : a = b then isTrue (by rw [h]) else isFalse (fun hc => h (Except.error.inj hc))
  | .ok _, .error _ => isFalse (fun hc => Except.noConfusion hc)
  | .error _, .ok _ => isFalse (fun hc => Except.noConfusion hc)

/-- One entry of the `FeeInfoWindows` section of a `ticketfeeinfo` result:
`StartHeight`/`EndHeight` are `uint32` block heights; `Mean`/`Median` are the
`hcutil.NewAmount` parse results of the `float64` fee statistics. -/
structure FeeInfoWindow where
  StartHeight : Nat
  EndHeight : Nat
  Mean : Except String Amount
  Median : Except String Amount
deriving DecidableEq

/-- One entry of the `FeeInfoBlocks` section of a `ticketfeeinfo` result. -/
structure FeeInfoBlock where
  Mean : Except String Amount
  Median : Except String Amount
deriving DecidableEq

/-- The `ticketfeeinfo` query result consumed by the two estimators. -/
structure TicketFeeInfoResult where
  FeeInfoBlocks : List FeeInfoBlock
  FeeInfoWindows : List FeeInfoWindow
deriving DecidableEq

/-- Block hashes are opaque identifiers here. -/
abbrev BlockHash := Nat

/-- The only block-header field the fragment reads is `SBits` (`int64`), the
stake difficulty. -/
structure BlockHeader where
  SBits : Int
deriving DecidableEq

/-- Modelled from the spec: the Chain Query Service collaborator
(`t.hcdChainSvr`, an RPC client whose construction is outside this
fragment).  `TicketFeeInfo` takes two optional (`*uint32` in Go) counts; an
unset pointer is `none`. -/
structure ChainSvr where
  TicketFeeInfo : Option Nat → Option Nat → Except String TicketFeeInfoResult
  GetBlockHash : Int → Except String BlockHash
  GetBlockHeader : BlockHash → Except String BlockHeader

/-- Modelled from the spec: the configuration consumed by the fragment,
`cfg.BlocksToAvg` (a Go `int`). -/
structure Config where
  BlocksToAvg : Int

/-- Modelled from the spec: the active network parameters consumed by the
fragment, `activeNet.StakeDiffWindowSize` (`int64`). -/
structure ChainParams where
  StakeDiffWindowSize : Int

/-- Modelled from the spec: the `TicketPurchaser` receiver; only the three
fields read by `feeest.go` are kept. -/
structure TicketPurchaser where
  hcdChainSvr : ChainSvr
  cfg : Config
  activeNet : ChainParams

/-- `windowsToConsider = 20` (source `feeest.go`). -/
def windowsToConsider : Nat := 20

/-- Modelled from the spec: the package-level `zeroUint32 = uint32(0)`
declared outside this fragment and passed as the block-count argument of the
window query. -/
def zeroUint32 : Nat := 0

/-- The comparator of `diffPeriodFees.Less` (`difference <`), in its
non-strict form: the sortedness relation the Go sort establishes. -/
def dpfLe (a b : diffPeriodFee) : Prop := a.difference ≤ b.difference

instance : DecidableRel dpfLe :=
  fun a b => inferInstanceAs (Decidable (a.difference ≤ b.difference))

instance : IsTotal diffPeriodFee dpfLe :=
  ⟨fun a b => Int.le_total a.difference b.difference⟩

instance : IsTrans diffPeriodFee dpfLe :=
  ⟨fun _ _ _ h h' => le_trans h h'⟩

/-- `data.Less i j` on a list: `p[i].difference < p[j].difference`, `false`
when an index is out of range (the Go sort never compares out of range). -/
def lless (l : List diffPeriodFee) (i j : Nat) : Bool :=
  match l[i]?, l[j]? with
  | some x, some y => decide (x.difference < y.difference)
  | _, _ => false

/-- `data.Swap i j` on a list; the identity when an index is out of range
(the Go sort never swaps out of range). -/
def lswap (l : List α) (i j : Nat) : List α :=
  match l[i]?, l[j]? with
  | some x, some y => (l.set i y).set j x
  | _, _ => l

/-- The gap-6 Shell sort pass of Go's (pre-1.19) `sort.quickSort`:
`for i := a+6; i < b; i++ { if data.Less(i, i-6) { data.Swap(i, i-6) } }`
with `a = 0`, `b = l.length`.  The structural `fuel` argument only bounds
the iteration count; the pass runs `b - 6` iterations and every caller
supplies `fuel = b ≥ b - 6`, so the loop always terminates by its own
guard `i < b`, never by fuel exhaustion. -/
def shellPassAux (b : Nat) : Nat → List diffPeriodFee → Nat → List diffPeriodFee
  | 0, l, _ => l
  | fuel + 1, l, i =>
    if i < b then
      shellPassAux b fuel (if lless l i (i - 6) then lswap l i (i - 6) else l) (i + 1)
    else l

/-- The Shell sort pass over the whole list. -/
def shellPass (l : List diffPeriodFee) : List diffPeriodFee :=
  shellPassAux l.length l.length l 6

/-- Model of `sort.Sort(sortable)`.  The repository predates Go 1.19, where
`sort.Sort` runs `quickSort(data, 0, n, maxDepth(n))`; for a range of at
most 12 elements that is exactly one gap-6 Shell sort pass followed by an
index-based insertion sort, embedded here as `shellPass` followed by the
stable insertion sort (extensionally equal to Go's insertion sort, both
being the unique stable sort for this total comparator).  Ranges longer
than 12 elements use an unstable quicksort in Go; this model is still, like
that quicksort, a correct comparison sort there, and theorems that depend
on the exact order among equal `difference` keys only use inputs of at most
12 candidates, where the model coincides with Go's code path.  `sort.Sort`
is documented as not guaranteed to be stable. -/
def goSortDPF (l : List diffPeriodFee) : List diffPeriodFee :=
  if 1 < l.length then List.insertionSort dpfLe (shellPass l) else l

/-- The fee field selected by the `useMedian` flag for a window
(`if !useMedian { fee, err = NewAmount(Mean) } else { ... Median }`). -/
def selFee (useMedian : Bool) (w : FeeInfoWindow) : Except String Amount :=
  if !useMedian then w.Mean else w.Median

/-- The "absolute value" computation of `findClosestFeeWindows`:
`diff := windowDiffAmt - difficulty; if diff < 0 { diff *= -1 }`, in wrapping
64-bit arithmetic. -/
def goAbsDiff (windowDiffAmt difficulty : Amount) : Amount :=
  let diff := wrap64 (windowDiffAmt - difficulty)
  if diff < 0 then wrap64 (diff * -1) else diff

/-- The window loop of `findClosestFeeWindows`, building `sortable` in
encounter order: the first window is skipped when its span is shorter than
`StakeDiffWindowSize`; otherwise the block hash and header at the window's
start height are fetched (failures abort), the selected fee is taken
(parse failures abort), zero-fee windows are skipped, and each surviving
window contributes a `diffPeriodFee`. -/
def collectWindows (svr : ChainSvr) (sdws : Int) (difficulty : Amount) (useMedian : Bool) :
    Nat → List FeeInfoWindow → Except String (List diffPeriodFee)
  | _, [] => .ok []
  | i, w :: ws =>
    if i = 0 ∧ ((uint32sub w.EndHeight w.StartHeight : Nat) : Int) < sdws then
      collectWindows svr sdws difficulty useMedian (i + 1) ws
    else
      match svr.GetBlockHash ((w.StartHeight % 2 ^ 32 : Nat) : Int) with
      | .error e => .error e
      | .ok blH =>
        match svr.GetBlockHeader blH with
        | .error e => .error e
        | .ok blkHeader =>
          match selFee useMedian w with
          | .error e => .error e
          | .ok fee =>
            if fee = 0 then
              collectWindows svr sdws difficulty useMedian (i + 1) ws
            else
              match collectWindows svr sdws difficulty useMedian (i + 1) ws with
              | .error e => .error e
              | .ok rest =>
                .ok ({ difficulty := blkHeader.SBits,
                       difference := goAbsDiff blkHeader.SBits difficulty,
                       fee := fee } :: rest)

/-- `findClosestFeeWindows` (source `feeest.go`): query fee info for the last
`windowsToConsider` windows (with the block count pointer set to
`zeroUint32`), fail on an empty window list, scan the windows, sort the
surviving candidates by difficulty difference and return the fee of the
first one; `(0, nil)` when no candidate survives. -/
def findClosestFeeWindows (t : TicketPurchaser) (difficulty : Amount) (useMedian : Bool) :
    Amount × Option String :=
  match t.hcdChainSvr.TicketFeeInfo (some zeroUint32) (some windowsToConsider) with
  | .error e => (0, some e)
  | .ok info =>
    if info.FeeInfoWindows.length = 0 then
      (0, some "not enough windows to find mean fee available")
    else
      match collectWindows t.hcdChainSvr t.activeNet.StakeDiffWindowSize difficulty useMedian 0
          info.FeeInfoWindows with
      | .error e => (0, some e)
      | .ok sortable =>
        match goSortDPF sortable with
        | [] => (0, none)
        | dpf :: _ => (dpf.fee, none)

/-- Outcome of `findTicketFeeBlocks`: a normal Go return `(fee, err)` or the
run-time panic of an integer division by zero. -/
inductive GoResult where
  | ret (fee : Amount) (err : Option String)
  | fault
deriving DecidableEq

/-- The fee field selected by the `useMedian` flag for a block. -/
def selFeeB (useMedian : Bool) (b : FeeInfoBlock) : Except String Amount :=
  if !useMedian then b.Mean else b.Median

/-- The summing loop of `findTicketFeeBlocks`: accumulate the selected fees
(64-bit wrapping `sum += tmp`), aborting on the first parse failure. -/
def sumFeesGo : Amount → List (Except String Amount) → Except String Amount
  | sum, [] => .ok sum
  | sum, f :: fs =>
    match f with
    | .error e => .error e
    | .ok tmp => sumFeesGo (wrap64 (sum + tmp)) fs

/-- `findTicketFeeBlocks` (source `feeest.go`): query fee info for
`uint32(cfg.BlocksToAvg)` blocks (window count unset), sum the selected
fees, and return `sum / Amount(cfg.BlocksToAvg)` — a Go `int64` quotient
(truncated, wrapping on `MinInt64 / -1`) that panics when
`cfg.BlocksToAvg` is zero. -/
def findTicketFeeBlocks (t : TicketPurchaser) (useMedian : Bool) : GoResult :=
  let btaUint32 : Nat := (t.cfg.BlocksToAvg % (2 ^ 32 : Int)).toNat
  match t.hcdChainSvr.TicketFeeInfo (some btaUint32) none with
  | .error e => .ret 0 (some e)
  | .ok info =>
    match sumFeesGo 0 (info.FeeInfoBlocks.map (selFeeB useMedian)) with
    | .error e => .ret 0 (some e)
    | .ok sum =>
      if t.cfg.BlocksToAvg = 0 then .fault
      else .ret (wrap64 (Int.tdiv sum t.cfg.BlocksToAvg)) none

/-! ### Concrete fixtures used by witnesses and counterexamples -/

/-- A fee-info window whose mean and median both parsed to `f`. -/
def mkWin (s e : Nat) (f : Except String Amount) : FeeInfoWindow :=
  { StartHeight := s, EndHeight := e, Mean := f, Median := f }

/-- A chain service answering every query: the fee-info result has the given
windows, block hashes are the heights themselves, and headers carry the
stake difficulty `sb hash`. -/
def svrOf (ws : List FeeInfoWindow) (sb : Nat → Int) : ChainSvr :=
  { TicketFeeInfo := fun _ _ => .ok { FeeInfoBlocks := [], FeeInfoWindows := ws }
    GetBlockHash := fun h => .ok h.toNat
    GetBlockHeader := fun bh => .ok { SBits := sb bh } }

/-- Block stats whose mean and median both parsed to the listed values. -/
def blocksOf (fs : List Int) : List FeeInfoBlock :=
  fs.map (fun f => { Mean := .ok f, Median := .ok f })

/-- A chain service answering only the block section of `ticketfeeinfo`. -/
def svrB (bs : List FeeInfoBlock) : ChainSvr :=
  { TicketFeeInfo := fun _ _ => .ok { FeeInfoBlocks := bs, FeeInfoWindows := [] }
    GetBlockHash := fun _ => .error "no hash"
    GetBlockHeader := fun _ => .error "no header" }

/-- The single window has full span but zero fee, so it is filtered out. -/
def tC3 : TicketPurchaser :=
  { hcdChainSvr := svrOf [mkWin 0 144 (.ok 0)] (fun _ => 5), cfg := { BlocksToAvg := 3 },
    activeNet := { StakeDiffWindowSize := 144 } }

/-- A chain service returning a fee-info result with no windows at all. -/
def tC4 : TicketPurchaser :=
  { hcdChainSvr := svrOf [] (fun _ => 0), cfg := { BlocksToAvg := 3 },
    activeNet := { StakeDiffWindowSize := 144 } }

/-- Mean fees 10, 20, 30 with `BlocksToAvg = 3`. -/
def tC5a : TicketPurchaser :=
  { hcdChainSvr := svrB (blocksOf [10, 20, 30]), cfg := { BlocksToAvg := 3 },
    activeNet := { StakeDiffWindowSize := 144 } }

/-- The same three block stats (sum 60) with `BlocksToAvg = 5`. -/
def tC5b : TicketPurchaser :=
  { hcdChainSvr := svrB (blocksOf [10, 20, 30]), cfg := { BlocksToAvg := 5 },
    activeNet := { StakeDiffWindowSize := 144 } }

/-- A chain service whose every query fails. -/
def tC6 : TicketPurchaser :=
  { hcdChainSvr :=
      { TicketFeeInfo := fun _ _ => .error "rpc down"
        GetBlockHash := fun _ => .error "rpc down"
        GetBlockHeader := fun _ => .error "rpc down" }
    cfg := { BlocksToAvg := 3 }, activeNet := { StakeDiffWindowSize := 144 } }

/-- `BlocksToAvg = 0` with a successful (empty) block query. -/
def tC9a : TicketPurchaser :=
  { hcdChainSvr := svrB [], cfg := { BlocksToAvg := 0 },
    activeNet := { StakeDiffWindowSize := 144 } }

/-- `BlocksToAvg = 3` with the same chain service. -/
def tC9b : TicketPurchaser :=
  { hcdChainSvr := svrB [], cfg := { BlocksToAvg := 3 },
    activeNet := { StakeDiffWindowSize := 144 } }

/-! ### C1 -/

/-- Target difficulty `0`; window 0 has stake difficulty `-2 ^ 63` (true
absolute difference `2 ^ 63`) and fee 20, window 1 has stake difficulty `1`
(true absolute difference `1`) and fee 10.  Both spans are full. -/
def tC1 : TicketPurchaser :=
  { hcdChainSvr := svrOf [mkWin 0 144 (.ok 20), mkWin 1 145 (.ok 10)]
      (fun h => if h = 0 then -(2 ^ 63) else 1)
    cfg := { BlocksToAvg := 3 }, activeNet := { StakeDiffWindowSize := 144 } }

/-- Two full windows: difficulties 103 and 110, fees 55 and 77, target 100. -/
def tC1w : TicketPurchaser :=
  { hcdChainSvr := svrOf [mkWin 0 144 (.ok 55), mkWin 1 145 (.ok 77)]
      (fun h => if h = 0 then 103 else 110)
    cfg := { BlocksToAvg := 3 }, activeNet := { StakeDiffWindowSize := 144 } }

/-! ### C2 -/

/-- Seven full windows, target difficulty 100.  Stake difficulties
109, 107, 107, 105, 107, 107, 95 give differences 9, 7, 7, 5, 7, 7, 5:
the windows with fees 50 (encounter index 3) and 51 (encounter index 6) tie
at the minimal difference 5, and fee 50 comes first in input order. -/
def tC2 : TicketPurchaser :=
  { hcdChainSvr := svrOf
      [mkWin 0 144 (.ok 90), mkWin 1 145 (.ok 70), mkWin 2 146 (.ok 71),
       mkWin 3 147 (.ok 50), mkWin 4 148 (.ok 72), mkWin 5 149 (.ok 73),
       mkWin 6 150 (.ok 51)]
      (fun h => [109, 107, 107, 105, 107, 107, 95].getD h 0)
    cfg := { BlocksToAvg := 3 }, activeNet := { StakeDiffWindowSize := 144 } }

/-- Two full windows with distinct mean and median parse results, queried
with `useMedian = true`: median fees 40 and 60, difficulties 200 and 205,
target 202. -/
def tC2w : TicketPurchaser :=
  { hcdChainSvr := svrOf
      [{ StartHeight := 0, EndHeight := 144, Mean := .ok 1, Median := .ok 40 },
       { StartHeight := 1, EndHeight := 145, Mean := .ok 2, Median := .ok 60 }]
      (fun h => if h = 0 then 200 else 205)
    cfg := { BlocksToAvg := 3 }, activeNet := { StakeDiffWindowSize := 144 } }

/-! ### C7 -/

/-- A single window of span 200 (not the full 144-block period) whose mean
fee parsed to the negative value -7. -/
def tC7 : TicketPurchaser :=
  { hcdChainSvr := svrOf [mkWin 10 210 (.ok (-7))] (fun _ => 5)
    cfg := { BlocksToAvg := 3 }, activeNet := { StakeDiffWindowSize := 144 } }

/-- A chain service used to exercise the three candidacy cases. -/
def svrC7w : ChainSvr := svrOf [] (fun _ => 5)

/-! ### C8 -/

/-- A chain service that fails precisely when both count parameters of
`TicketFeeInfo` are set, and otherwise succeeds with an empty result. -/
def svrC8 : ChainSvr :=
  { TicketFeeInfo := fun b w =>
      match b, w with
      | some _, some _ => .error "both count parameters set"
      | _, _ => .ok { FeeInfoBlocks := [], FeeInfoWindows := [] }
    GetBlockHash := fun _ => .error "unused"
    GetBlockHeader := fun _ => .error "unused" }

def tC8 : TicketPurchaser :=
  { hcdChainSvr := svrC8, cfg := { BlocksToAvg := 3 },
    activeNet := { StakeDiffWindowSize := 144 } }

/-- A chain service that records the `TicketFeeInfo` arguments it receives
in its error message. -/
def argProbe : ChainSvr :=
  { TicketFeeInfo := fun b w =>
      .error ((match b with | none => "unset" | some n => "set:" ++ toString n) ++ "," ++
        (match w with | none => "unset" | some n => "set:" ++ toString n))
    GetBlockHash := fun _ => .error "unused"
    GetBlockHeader := fun _ => .error "unused" }

/-! ### C10 -/

/-- A single full-span window whose mean fee parsed to -5. -/
def tC10 : TicketPurchaser :=
  { hcdChainSvr := svrOf [mkWin 0 144 (.ok (-5))] (fun _ => 7)
    cfg := { BlocksToAvg := 3 }, activeNet := { StakeDiffWindowSize := 144 } }

/-- A single full-span window with fee 9 and stake difficulty 3. -/
def tC10w : TicketPurchaser :=
  { hcdChainSvr := svrOf [mkWin 0 144 (.ok 9)] (fun _ => 3)
    cfg := { BlocksToAvg := 3 }, activeNet := { StakeDiffWindowSize := 144 } }

/-! ### Permutation and sortedness facts about the sort model -/

/-- Consing the `k`-th element onto the list updated at `k` permutes consing
the new value onto the original list. -/
theorem get_cons_set_perm {α : Type} (a : α) :
    ∀ (t : List α) (k : Nat) (hk : k < t.length),
      (t.get ⟨k, hk⟩ :: t.set k a).Perm (a :: t)
  | b :: t, 0, _ => List.Perm.swap a b t
  | b :: t, k + 1, hk => by
    have ih := get_cons_set_perm a t k (by simpa using hk)
    simp only [List.get_eq_getElem, List.getElem_cons_succ, List.set_cons_succ]
    exact ((List.Perm.swap b _ _).trans (ih.cons b)).trans (List.Perm.swap a b t)

/-- The basic two-index swap is a permutation. -/
theorem set_set_get_perm {α : Type} :
    ∀ (l : List α) (i j : Nat) (hi : i < l.length) (hj : j < l.length),
      ((l.set i (l.get ⟨j, hj⟩)).set j (l.get ⟨i, hi⟩)).Perm l
  | [], i, _, hi, _ => absurd hi (by simp)
  | a :: t, 0, 0, _, _ => by simp
  | a :: t, 0, j + 1, hi, hj => by
    simp only [List.get_eq_getElem, List.getElem_cons_succ, List.getElem_cons_zero,
      List.set_cons_zero, List.set_cons_succ]
    exact get_cons_set_perm a t j (by simpa using hj)
  | a :: t, i + 1, 0, hi, hj => by
    simp only [List.get_eq_getElem, List.getElem_cons_succ, List.getElem_cons_zero,
      List.set_cons_zero, List.set_cons_succ]
    exact get_cons_set_perm a t i (by simpa using hi)
  | a :: t, i + 1, j + 1, hi, hj => by
    simp only [List.get_eq_getElem, List.getElem_cons_succ, List.set_cons_succ]
    exact (set_set_get_perm t i j (by simpa using hi) (by simpa using hj)).cons a

/-- `lswap` permutes its argument. -/
theorem lswap_perm {α : Type} (l : List α) (i j : Nat) : (lswap l i j).Perm l := by
  unfold lswap
  split
  · next x y hx hy =>
    obtain ⟨hi, hx⟩ := List.getElem?_eq_some_iff.1 hx
    obtain ⟨hj, hy⟩ := List.getElem?_eq_some_iff.1 hy
    subst hx; subst hy
    exact set_set_get_perm l i j hi hj
  · exact List.Perm.refl l

/-- Each step of the Shell sort pass permutes the list. -/
theorem shellPassAux_perm (b : Nat) : ∀ (fuel : Nat) (l : List diffPeriodFee) (i : Nat),
    (shellPassAux b fuel l i).Perm l
  | 0, l, i => List.Perm.refl l
  | fuel + 1, l, i => by
    rw [shellPassAux]
    split
    · refine (shellPassAux_perm b fuel _ (i + 1)).trans ?_
      split
      · exact lswap_perm l i (i - 6)
      · exact List.Perm.refl l
    · exact List.Perm.refl l

/-- The Shell sort pass permutes the list. -/
theorem shellPass_perm (l : List diffPeriodFee) : (shellPass l).Perm l :=
  shellPassAux_perm l.length l.length l 6

/-- The modelled `sort.Sort` permutes the candidate list. -/
theorem goSortDPF_perm (l : List diffPeriodFee) : (goSortDPF l).Perm l := by
  unfold goSortDPF
  split
  · exact (List.perm_insertionSort dpfLe (shellPass l)).trans (shellPass_perm l)
  · exact List.Perm.refl l

/-- The modelled `sort.Sort` output is sorted by `difference`. -/
theorem goSortDPF_sorted (l : List diffPeriodFee) : (goSortDPF l).Sorted dpfLe := by
  unfold goSortDPF
  split
  · exact List.sorted_insertionSort dpfLe (shellPass l)
  · next h =>
    match l, h with
    | [], _ => exact List.sorted_nil
    | [a], _ => exact List.sorted_singleton a
    | a :: b :: t, h => exact absurd (by simp) h

/-- On a nonempty candidate list, the modelled sort puts a candidate of
minimal `difference` first. -/
theorem goSortDPF_head_min (l : List diffPeriodFee) (hne : l ≠ []) :
    ∃ c cs, goSortDPF l = c :: cs ∧ c ∈ l ∧
      ∀ c' ∈ l, c.difference ≤ c'.difference := by
  cases h : goSortDPF l with
  | nil =>
    have hp := goSortDPF_perm l
    rw [h] at hp
    exact absurd hp.nil_eq.symm hne
  | cons c cs =>
    refine ⟨c, cs, rfl, ?_, ?_⟩
    · exact (goSortDPF_perm l).mem_iff.1 (h ▸ List.mem_cons_self c cs)
    · intro c' hc'
      have hmem : c' ∈ goSortDPF l := (goSortDPF_perm l).mem_iff.2 hc'
      rw [h] at hmem
      rcases List.mem_cons.1 hmem with rfl | hmem
      · exact le_refl _
      · have hs := goSortDPF_sorted l
        rw [h] at hs
        exact List.rel_of_sorted_cons hs c' hmem

/-! ### Arithmetic facts -/

/-- `wrap64` is the identity on values already in the `int64` range. -/
theorem wrap64_eq_self {x : Int} (h1 : -(2 ^ 63) ≤ x) (h2 : x < 2 ^ 63) : wrap64 x = x := by
  unfold wrap64
  have hb : (0 : Int) < 2 ^ 64 := by norm_num
  have hx1 : (0 : Int) ≤ x + 2 ^ 63 := by norm_num at h1 ⊢; omega
  have hx2 : x + 2 ^ 63 < 2 ^ 64 := by norm_num at h2 ⊢; omega
  rw [Int.emod_eq_of_lt hx1 hx2]
  omega

/-- When the difficulty difference does not overflow `int64`, the Go
"absolute value" computation is the true absolute difference. -/
theorem goAbsDiff_eq_abs {s d : Int} (h : |s - d| < 2 ^ 63) : goAbsDiff s d = |s - d| := by
  have hlt := abs_lt.mp h
  unfold goAbsDiff
  rw [wrap64_eq_self (le_of_lt hlt.1) hlt.2]
  show (if s - d < 0 then wrap64 ((s - d) * -1) else s - d) = |s - d|
  split
  · next hneg =>
    rw [show (s - d) * -1 = -(s - d) by ring,
      wrap64_eq_self (by omega) (by omega), abs_of_neg hneg]
  · next hpos =>
    rw [abs_of_nonneg (by omega)]

/-! ### Provenance of the surviving candidates -/

/-- Every candidate produced by the window loop stems from a window of the
query result: its fee is that window's selected parsed fee (nonzero), its
difficulty is the `SBits` of the header fetched at the window's start
height, and its difference is the Go absolute-difference computation. -/
theorem collectWindows_ok_mem (svr : ChainSvr) (sdws : Int) (d : Amount) (m : Bool) :
    ∀ (i : Nat) (ws : List FeeInfoWindow) (cands : List diffPeriodFee),
      collectWindows svr sdws d m i ws = .ok cands →
      ∀ c ∈ cands, ∃ w ∈ ws, ∃ hdr : BlockHeader,
        (∃ blH, svr.GetBlockHash ((w.StartHeight % 2 ^ 32 : Nat) : Int) = .ok blH ∧
          svr.GetBlockHeader blH = .ok hdr) ∧
        selFee m w = .ok c.fee ∧ c.fee ≠ 0 ∧
        c.difficulty = hdr.SBits ∧ c.difference = goAbsDiff hdr.SBits d
  | _, [], cands, h, c, hc => by
    rw [collectWindows] at h
    cases h
    exact absurd hc (List.not_mem_nil c)
  | i, w :: ws, cands, h, c, hc => by
    rw [collectWindows] at h
    split at h
    · obtain ⟨w', hw', rest⟩ := collectWindows_ok_mem svr sdws d m (i + 1) ws cands h c hc
      exact ⟨w', List.mem_cons_of_mem w hw', rest⟩
    · revert h
      split
      · exact fun h => Except.noConfusion h
      · next blH hbl =>
        split
        · exact fun h => Except.noConfusion h
        · next hdr hhdr =>
          split
          · exact fun h => Except.noConfusion h
          · next fee hfee =>
            split
            · intro h
              obtain ⟨w', hw', rest⟩ :=
                collectWindows_ok_mem svr sdws d m (i + 1) ws cands h c hc
              exact ⟨w', List.mem_cons_of_mem w hw', rest⟩
            · next hfz =>
              split
              · exact fun h => Except.noConfusion h
              · next rest hrest =>
                intro h
                cases h
                rcases List.mem_cons.1 hc with rfl | hcm
                · exact ⟨w, List.mem_cons_self w ws, hdr, ⟨blH, hbl, hhdr⟩, hfee, hfz, rfl, rfl⟩
                · obtain ⟨w', hw', rest'⟩ :=
                    collectWindows_ok_mem svr sdws d m (i + 1) ws rest hrest c hcm
                  exact ⟨w', List.mem_cons_of_mem w hw', rest'⟩

/-- Every surviving candidate's stored difference is the Go
absolute-difference computation applied to its own stored difficulty. -/
theorem collectWindows_difference (svr : ChainSvr) (sdws : Int) (d : Amount) (m : Bool)
    (i : Nat) (ws : List FeeInfoWindow) (cands : List diffPeriodFee)
    (h : collectWindows svr sdws d m i ws = .ok cands) :
    ∀ c ∈ cands, c.difference = goAbsDiff c.difficulty d := by
  intro c hc
  obtain ⟨w, _, hdr, _, _, _, hdiff, hdifference⟩ :=
    collectWindows_ok_mem svr sdws d m i ws cands h c hc
  rw [hdifference, hdiff]

/-! ### Unfolding the happy path of the window estimator -/

/-- When the window query succeeds with a nonempty window list and the scan
succeeds, `findClosestFeeWindows` returns the head fee of the sorted
candidate list (or `(0, nil)` when no candidate survived). -/
theorem findClosestFeeWindows_ok (t : TicketPurchaser) (d : Amount) (m : Bool)
    (info : TicketFeeInfoResult) (cands : List diffPeriodFee)
    (hq : t.hcdChainSvr.TicketFeeInfo (some zeroUint32) (some windowsToConsider) = .ok info)
    (hne : info.FeeInfoWindows ≠ [])
    (hc : collectWindows t.hcdChainSvr t.activeNet.StakeDiffWindowSize d m 0
        info.FeeInfoWindows = .ok cands) :
    findClosestFeeWindows t d m =
      (match goSortDPF cands with
       | [] => (0, none)
       | dpf :: _ => (dpf.fee, none)) := by
  unfold findClosestFeeWindows
  rw [hq]
  dsimp only
  rw [if_neg (by simpa using hne), hc]

/-! ### C3 -/

/-- C3: when the window query succeeds with a nonempty window list but every
window is filtered out (the scan yields no candidate), `findClosestFeeWindows`
returns fee `0` and a `nil` error. -/
theorem c3_filtered_zero_nil (t : TicketPurchaser) (d : Amount) (m : Bool)
    (info : TicketFeeInfoResult)
    (hq : t.hcdChainSvr.TicketFeeInfo (some zeroUint32) (some windowsToConsider) = .ok info)
    (hne : info.FeeInfoWindows ≠ [])
    (hc : collectWindows t.hcdChainSvr t.activeNet.StakeDiffWindowSize d m 0
        info.FeeInfoWindows = .ok []) :
    findClosestFeeWindows t d m = (0, none) := by
  rw [findClosestFeeWindows_ok t d m info [] hq hne hc]
  rfl

theorem c3_filtered_zero_nil_witness : findClosestFeeWindows tC3 0 false = (0, none) :=
  c3_filtered_zero_nil tC3 0 false
    { FeeInfoBlocks := [], FeeInfoWindows := [mkWin 0 144 (.ok 0)] }
    rfl (by decide) (by decide)

/-! ### C4 -/

/-- C4: when the window query succeeds but returns an empty window list,
`findClosestFeeWindows` returns fee `0` and the non-`nil` "no data" error. -/
theorem c4_empty_windows_error (t : TicketPurchaser) (d : Amount) (m : Bool)
    (info : TicketFeeInfoResult)
    (hq : t.hcdChainSvr.TicketFeeInfo (some zeroUint32) (some windowsToConsider) = .ok info)
    (h0 : info.FeeInfoWindows = []) :
    findClosestFeeWindows t d m =
      (0, some "not enough windows to find mean fee available") := by
  unfold findClosestFeeWindows
  rw [hq]
  dsimp only
  rw [if_pos (by simp [h0])]

theorem c4_empty_windows_error_witness :
    findClosestFeeWindows tC4 0 false =
      (0, some "not enough windows to find mean fee available") :=
  c4_empty_windows_error tC4 0 false { FeeInfoBlocks := [], FeeInfoWindows := [] } rfl rfl

/-! ### C5 -/

/-- C5: on a successful block query and fee scan, `findTicketFeeBlocks`
divides the (wrapping) sum of the selected per-block fees by the configured
`cfg.BlocksToAvg`, not by the number of returned block stats. -/
theorem c5_divide_by_configured (t : TicketPurchaser) (m : Bool)
    (info : TicketFeeInfoResult) (s : Amount)
    (hq : t.hcdChainSvr.TicketFeeInfo (some ((t.cfg.BlocksToAvg % (2 ^ 32 : Int)).toNat))
        none = .ok info)
    (hs : sumFeesGo 0 (info.FeeInfoBlocks.map (selFeeB m)) = .ok s)
    (hb : t.cfg.BlocksToAvg ≠ 0) :
    findTicketFeeBlocks t m = .ret (wrap64 (Int.tdiv s t.cfg.BlocksToAvg)) none := by
  unfold findTicketFeeBlocks
  dsimp only
  rw [hq]
  dsimp only
  rw [hs]
  dsimp only
  rw [if_neg hb]

theorem c5_divide_by_configured_witness :
    findTicketFeeBlocks tC5a false = .ret 20 none ∧
    findTicketFeeBlocks tC5b false = .ret 12 none :=
  ⟨(c5_divide_by_configured tC5a false
      { FeeInfoBlocks := blocksOf [10, 20, 30], FeeInfoWindows := [] } 60
      rfl (by decide) (by decide)).trans (by decide),
   (c5_divide_by_configured tC5b false
      { FeeInfoBlocks := blocksOf [10, 20, 30], FeeInfoWindows := [] } 60
      rfl (by decide) (by decide)).trans (by decide)⟩

/-! ### C6 -/

/-- C6: any chain-service failure or fee-parse failure during either
estimator aborts it at once with fee `0` and that underlying error — whether
the fee-info query itself failed, or any block-hash / block-header lookup or
fee parse failed during the window scan, or any fee parse failed during the
block scan. -/
theorem c6_abort_on_failure (t : TicketPurchaser) (d : Amount) (m : Bool) (e : String) :
    ((t.hcdChainSvr.TicketFeeInfo (some zeroUint32) (some windowsToConsider) = .error e ∨
      ∃ info, t.hcdChainSvr.TicketFeeInfo (some zeroUint32) (some windowsToConsider) = .ok info ∧
        info.FeeInfoWindows ≠ [] ∧
        collectWindows t.hcdChainSvr t.activeNet.StakeDiffWindowSize d m 0
          info.FeeInfoWindows = .error e) →
      findClosestFeeWindows t d m = (0, some e)) ∧
    ((t.hcdChainSvr.TicketFeeInfo (some ((t.cfg.BlocksToAvg % (2 ^ 32 : Int)).toNat)) none =
        .error e ∨
      ∃ info, t.hcdChainSvr.TicketFeeInfo (some ((t.cfg.BlocksToAvg % (2 ^ 32 : Int)).toNat))
          none = .ok info ∧
        sumFeesGo 0 (info.FeeInfoBlocks.map (selFeeB m)) = .error e) →
      findTicketFeeBlocks t m = .ret 0 (some e)) := by
  constructor
  · rintro (hq | ⟨info, hq, hne, hc⟩)
    · unfold findClosestFeeWindows
      rw [hq]
    · unfold findClosestFeeWindows
      rw [hq]
      dsimp only
      rw [if_neg (by simpa using hne), hc]
  · rintro (hq | ⟨info, hq, hs⟩)
    · unfold findTicketFeeBlocks
      dsimp only
      rw [hq]
    · unfold findTicketFeeBlocks
      dsimp only
      rw [hq]
      dsimp only
      rw [hs]

theorem c6_abort_on_failure_witness :
    findClosestFeeWindows tC6 0 false = (0, some "rpc down") ∧
    findTicketFeeBlocks tC6 false = .ret 0 (some "rpc down") :=
  ⟨(c6_abort_on_failure tC6 0 false "rpc down").1 (Or.inl rfl),
   (c6_abort_on_failure tC6 0 false "rpc down").2 (Or.inl rfl)⟩

/-! ### C9 -/

/-- C9: the final division of `findTicketFeeBlocks` is unguarded — with
`cfg.BlocksToAvg = 0` it faults (integer division by zero) whenever the
query and the fee parses succeed, and with `cfg.BlocksToAvg ≠ 0` the
function never faults. -/
theorem c9_division_guard :
    (∀ (t : TicketPurchaser) (m : Bool) (info : TicketFeeInfoResult) (s : Amount),
      t.hcdChainSvr.TicketFeeInfo (some ((t.cfg.BlocksToAvg % (2 ^ 32 : Int)).toNat)) none =
        .ok info →
      sumFeesGo 0 (info.FeeInfoBlocks.map (selFeeB m)) = .ok s →
      t.cfg.BlocksToAvg = 0 → findTicketFeeBlocks t m = .fault) ∧
    (∀ (t : TicketPurchaser) (m : Bool),
      t.cfg.BlocksToAvg ≠ 0 → findTicketFeeBlocks t m ≠ .fault) := by
  constructor
  · intro t m info s hq hs hb
    unfold findTicketFeeBlocks
    dsimp only
    rw [hq]
    dsimp only
    rw [hs]
    dsimp only
    rw [if_pos hb]
  · intro t m hb
    unfold findTicketFeeBlocks
    dsimp only
    split
    · exact fun hcon => GoResult.noConfusion hcon
    · split
      · exact fun hcon => GoResult.noConfusion hcon
      · rw [if_neg hb]
        exact fun hcon => GoResult.noConfusion hcon

theorem c9_division_guard_witness :
    findTicketFeeBlocks tC9a false = .fault ∧ findTicketFeeBlocks tC9b false ≠ .fault :=
  ⟨c9_division_guard.1 tC9a false { FeeInfoBlocks := [], FeeInfoWindows := [] } 0
      rfl rfl rfl,
   c9_division_guard.2 tC9b false (by decide)⟩

/-- C1 counterexample: the claim predicts the fee of the window minimizing
the absolute difficulty difference (here fee 10, difference 1), but the Go
`int64` computation of `abs(-2 ^ 63 - 0)` wraps to `-2 ^ 63`, which sorts
before every true difference, so the code returns fee 20 of the window that
is farthest from the target. -/
theorem c1_closest_window_counterexample :
    (collectWindows tC1.hcdChainSvr 144 0 false 0
        [mkWin 0 144 (.ok 20), mkWin 1 145 (.ok 10)]).map
        (List.map fun c => (c.difficulty, c.fee)) = .ok [(-(2 ^ 63), 20), (1, 10)] ∧
    |(1 : Int) - 0| < |(-(2 ^ 63) : Int) - 0| ∧
    findClosestFeeWindows tC1 0 false = (20, none) ∧
    findClosestFeeWindows tC1 0 false ≠ (10, none) := by decide

/-- C1 (amended): when the window query succeeds with a nonempty window
list, the scan succeeds with at least one surviving candidate, and no
surviving candidate's difficulty differs from the target by `2 ^ 63` or
more (no `int64` overflow), `findClosestFeeWindows` returns, with no error,
the selected fee of a surviving candidate whose difficulty minimizes the
absolute difference to the target. -/
theorem c1_closest_window_amended (t : TicketPurchaser) (d : Amount) (m : Bool)
    (info : TicketFeeInfoResult) (cands : List diffPeriodFee)
    (hq : t.hcdChainSvr.TicketFeeInfo (some zeroUint32) (some windowsToConsider) = .ok info)
    (hne : info.FeeInfoWindows ≠ [])
    (hc : collectWindows t.hcdChainSvr t.activeNet.StakeDiffWindowSize d m 0
        info.FeeInfoWindows = .ok cands)
    (hcne : cands ≠ [])
    (hov : ∀ c ∈ cands, |c.difficulty - d| < 2 ^ 63) :
    ∃ c ∈ cands, findClosestFeeWindows t d m = (c.fee, none) ∧
      ∀ c' ∈ cands, |c.difficulty - d| ≤ |c'.difficulty - d| := by
  obtain ⟨c, cs, hsort, hmem, hmin⟩ := goSortDPF_head_min cands hcne
  refine ⟨c, hmem, ?_, ?_⟩
  · rw [findClosestFeeWindows_ok t d m info cands hq hne hc, hsort]
  · intro c' hc'
    have hd1 := collectWindows_difference _ _ _ _ _ _ _ hc c hmem
    have hd2 := collectWindows_difference _ _ _ _ _ _ _ hc c' hc'
    have hle := hmin c' hc'
    rwa [hd1, hd2, goAbsDiff_eq_abs (hov c hmem), goAbsDiff_eq_abs (hov c' hc')] at hle

theorem c1_closest_window_amended_witness :
    ∃ c ∈ ([{ difficulty := 103, difference := 3, fee := 55 },
            { difficulty := 110, difference := 10, fee := 77 }] : List diffPeriodFee),
      findClosestFeeWindows tC1w 100 false = (c.fee, none) ∧
      ∀ c' ∈ ([{ difficulty := 103, difference := 3, fee := 55 },
               { difficulty := 110, difference := 10, fee := 77 }] : List diffPeriodFee),
        |c.difficulty - 100| ≤ |c'.difficulty - 100| :=
  c1_closest_window_amended tC1w 100 false
    { FeeInfoBlocks := [], FeeInfoWindows := [mkWin 0 144 (.ok 55), mkWin 1 145 (.ok 77)] }
    [{ difficulty := 103, difference := 3, fee := 55 },
     { difficulty := 110, difference := 10, fee := 77 }]
    rfl (by decide) (by decide) (by decide) (by decide)

/-- C2 counterexample: among the two candidates tied at the minimal
difference 5, the earliest in encounter order has fee 50, but the code
returns fee 51: with 7 candidates Go's (pre-1.19) `sort.Sort` runs its
gap-6 Shell sort pass, which swaps the index-6 candidate (difference 5)
with the index-0 candidate (difference 9) before the stable insertion sort,
reversing the relative order of the two tied candidates.  The selection is
therefore not stable with respect to encounter order. -/
theorem c2_tie_stability_counterexample :
    (collectWindows tC2.hcdChainSvr 144 100 false 0
        [mkWin 0 144 (.ok 90), mkWin 1 145 (.ok 70), mkWin 2 146 (.ok 71),
         mkWin 3 147 (.ok 50), mkWin 4 148 (.ok 72), mkWin 5 149 (.ok 73),
         mkWin 6 150 (.ok 51)]).map
        (List.map diffPeriodFee.difference) = .ok [9, 7, 7, 5, 7, 7, 5] ∧
    (collectWindows tC2.hcdChainSvr 144 100 false 0
        [mkWin 0 144 (.ok 90), mkWin 1 145 (.ok 70), mkWin 2 146 (.ok 71),
         mkWin 3 147 (.ok 50), mkWin 4 148 (.ok 72), mkWin 5 149 (.ok 73),
         mkWin 6 150 (.ok 51)]).map
        (List.map diffPeriodFee.fee) = .ok [90, 70, 71, 50, 72, 73, 51] ∧
    findClosestFeeWindows tC2 100 false = (51, none) ∧
    findClosestFeeWindows tC2 100 false ≠ (50, none) := by decide

/-- C2 (amended): when at least one candidate survives, the returned fee is
the fee of one of the candidates whose computed difficulty difference is
minimal — but which of several tied candidates supplies the fee is decided
by the unstable sort, not by encounter order. -/
theorem c2_tie_amended (t : TicketPurchaser) (d : Amount) (m : Bool)
    (info : TicketFeeInfoResult) (cands : List diffPeriodFee)
    (hq : t.hcdChainSvr.TicketFeeInfo (some zeroUint32) (some windowsToConsider) = .ok info)
    (hne : info.FeeInfoWindows ≠ [])
    (hc : collectWindows t.hcdChainSvr t.activeNet.StakeDiffWindowSize d m 0
        info.FeeInfoWindows = .ok cands)
    (hcne : cands ≠ []) :
    ∃ c ∈ cands, findClosestFeeWindows t d m = (c.fee, none) ∧
      ∀ c' ∈ cands, c.difference ≤ c'.difference := by
  obtain ⟨c, cs, hsort, hmem, hmin⟩ := goSortDPF_head_min cands hcne
  refine ⟨c, hmem, ?_, hmin⟩
  rw [findClosestFeeWindows_ok t d m info cands hq hne hc, hsort]

theorem c2_tie_amended_witness :
    ∃ c ∈ ([{ difficulty := 200, difference := 2, fee := 40 },
            { difficulty := 205, difference := 3, fee := 60 }] : List diffPeriodFee),
      findClosestFeeWindows tC2w 202 true = (c.fee, none) ∧
      ∀ c' ∈ ([{ difficulty := 200, difference := 2, fee := 40 },
               { difficulty := 205, difference := 3, fee := 60 }] : List diffPeriodFee),
        c.difference ≤ c'.difference :=
  c2_tie_amended tC2w 202 true
    { FeeInfoBlocks := []
      FeeInfoWindows :=
        [{ StartHeight := 0, EndHeight := 144, Mean := .ok 1, Median := .ok 40 },
         { StartHeight := 1, EndHeight := 145, Mean := .ok 2, Median := .ok 60 }] }
    [{ difficulty := 200, difference := 2, fee := 40 },
     { difficulty := 205, difference := 3, fee := 60 }]
    rfl (by decide) (by decide) (by decide)

/-- C7 counterexample: the claim allows a window to become a candidate only
if its span equals `StakeDiffWindowSize` and its selected fee is strictly
positive, but the only window here has span 200 ≠ 144 and fee -7 < 0, and
it still becomes the selected candidate: the code never compares non-first
spans against the window size (and only skips the first window when its
span is short), and it filters fees by `fee == 0`, not `fee > 0`. -/
theorem c7_candidacy_counterexample :
    ((uint32sub 210 10 : Nat) : Int) ≠ tC7.activeNet.StakeDiffWindowSize ∧
    ¬ (0 : Amount) < -7 ∧
    findClosestFeeWindows tC7 0 false = (-7, none) := by decide

/-- C7 (amended): the candidacy rule actually applied by the window loop:
(a) the first window is dropped when its span is shorter than
`StakeDiffWindowSize` — the only span-based condition anywhere; (b) a
processed window whose lookups succeed and whose selected fee parsed to `0`
is dropped; (c) any other processed window whose lookups succeed and whose
selected fee parsed to a nonzero value (positive or negative, any span)
becomes a candidate carrying that fee, the header's `SBits` as difficulty,
and the Go absolute-difference computation. -/
theorem c7_candidacy_amended (svr : ChainSvr) (sdws : Int) (d : Amount) (m : Bool) :
    (∀ (w : FeeInfoWindow) (ws : List FeeInfoWindow),
      ((uint32sub w.EndHeight w.StartHeight : Nat) : Int) < sdws →
      collectWindows svr sdws d m 0 (w :: ws) = collectWindows svr sdws d m 1 ws) ∧
    (∀ (i : Nat) (w : FeeInfoWindow) (ws : List FeeInfoWindow) (blH : BlockHash)
        (hdr : BlockHeader),
      ¬(i = 0 ∧ ((uint32sub w.EndHeight w.StartHeight : Nat) : Int) < sdws) →
      svr.GetBlockHash ((w.StartHeight % 2 ^ 32 : Nat) : Int) = .ok blH →
      svr.GetBlockHeader blH = .ok hdr →
      selFee m w = .ok 0 →
      collectWindows svr sdws d m i (w :: ws) = collectWindows svr sdws d m (i + 1) ws) ∧
    (∀ (i : Nat) (w : FeeInfoWindow) (ws : List FeeInfoWindow) (blH : BlockHash)
        (hdr : BlockHeader) (f : Amount) (rest : List diffPeriodFee),
      ¬(i = 0 ∧ ((uint32sub w.EndHeight w.StartHeight : Nat) : Int) < sdws) →
      svr.GetBlockHash ((w.StartHeight % 2 ^ 32 : Nat) : Int) = .ok blH →
      svr.GetBlockHeader blH = .ok hdr →
      selFee m w = .ok f → f ≠ 0 →
      collectWindows svr sdws d m (i + 1) ws = .ok rest →
      collectWindows svr sdws d m i (w :: ws) =
        .ok ({ difficulty := hdr.SBits, difference := goAbsDiff hdr.SBits d,
               fee := f } :: rest)) := by
  refine ⟨?_, ?_, ?_⟩
  · intro w ws hshort
    rw [collectWindows, if_pos ⟨rfl, hshort⟩]
  · intro i w ws blH hdr hskip hbl hhdr hfee
    rw [collectWindows, if_neg hskip, hbl]
    dsimp only
    rw [hhdr]
    dsimp only
    rw [hfee]
    dsimp only
    rw [if_pos rfl]
  · intro i w ws blH hdr f rest hskip hbl hhdr hfee hfz hrest
    rw [collectWindows, if_neg hskip, hbl]
    dsimp only
    rw [hhdr]
    dsimp only
    rw [hfee]
    dsimp only
    rw [if_neg hfz, hrest]

theorem c7_candidacy_amended_witness :
    (collectWindows svrC7w 144 0 false 0 [mkWin 0 100 (.ok 1)] =
      collectWindows svrC7w 144 0 false 1 []) ∧
    (collectWindows svrC7w 144 0 false 1 [mkWin 0 144 (.ok 0)] =
      collectWindows svrC7w 144 0 false 2 []) ∧
    (collectWindows svrC7w 144 0 false 0 [mkWin 10 210 (.ok (-7))] =
      .ok [{ difficulty := 5, difference := goAbsDiff 5 0, fee := -7 }]) :=
  ⟨(c7_candidacy_amended svrC7w 144 0 false).1 (mkWin 0 100 (.ok 1)) [] (by decide),
   (c7_candidacy_amended svrC7w 144 0 false).2.1 1 (mkWin 0 144 (.ok 0)) [] 0
     { SBits := 5 } (by decide) rfl rfl rfl,
   (c7_candidacy_amended svrC7w 144 0 false).2.2 0 (mkWin 10 210 (.ok (-7))) [] 10
     { SBits := 5 } (-7) [] (by decide) rfl rfl rfl (by decide) rfl⟩

/-- C8 counterexample: against a service that fails exactly when both count
parameters are set, the window estimator's query fails — so
`findClosestFeeWindows` does not leave the block count unset: it passes
both pointers (`&zeroUint32` and `&wtcUint32`).  Had it left the block
count unset, the call would have succeeded and the function would have
returned the "not enough windows" error instead. -/
theorem c8_params_counterexample :
    findClosestFeeWindows tC8 0 false = (0, some "both count parameters set") ∧
    findClosestFeeWindows tC8 0 false ≠
      (0, some "not enough windows to find mean fee available") := by decide

/-- C8 (amended): `findTicketFeeBlocks` sets only the block count, leaving
the window count unset; `findClosestFeeWindows` sets both parameters — the
block count to `0` (requesting an empty block section) and the window count
to `20` — so at most one count parameter per call is nonzero, but the
window query does not leave its second parameter unset. -/
theorem c8_params_amended :
    (∀ (cf : Config) (an : ChainParams) (d : Amount) (m : Bool),
      findClosestFeeWindows { hcdChainSvr := argProbe, cfg := cf, activeNet := an } d m =
        (0, some "set:0,set:20")) ∧
    (∀ (cf : Config) (an : ChainParams) (m : Bool),
      findTicketFeeBlocks { hcdChainSvr := argProbe, cfg := cf, activeNet := an } m =
        .ret 0 (some ("set:" ++ toString ((cf.BlocksToAvg % (2 ^ 32 : Int)).toNat) ++
          "," ++ "unset"))) :=
  ⟨fun _ _ _ _ => rfl, fun _ _ _ => rfl⟩

/-- C10 counterexample: `findClosestFeeWindows` returns `(-5, nil)` — a
nonzero fee that is not strictly positive, refuting the positivity half of
the claim (the fee does come from a window of the query result; only
`fee == 0` is filtered, so a negatively parsed fee survives). -/
theorem c10_provenance_counterexample :
    findClosestFeeWindows tC10 0 false = (-5, none) ∧
    (-5 : Amount) ≠ 0 ∧ ¬ (0 : Amount) < -5 := by decide

/-- C10 (amended): whenever `findClosestFeeWindows` returns `(f, nil)` with
`f` nonzero, `f` is the selected (mean or median, per the flag) parsed fee
of one of the windows of the query result — no fee is fabricated — and `f`
is strictly positive provided every successfully parsed selected fee of the
result's windows is non-negative. -/
theorem c10_provenance_amended (t : TicketPurchaser) (d : Amount) (m : Bool) (f : Amount)
    (hres : findClosestFeeWindows t d m = (f, none)) (hf : f ≠ 0) :
    (∃ info w, t.hcdChainSvr.TicketFeeInfo (some zeroUint32) (some windowsToConsider) =
        .ok info ∧ w ∈ info.FeeInfoWindows ∧ selFee m w = .ok f) ∧
    ((∀ info w x,
        t.hcdChainSvr.TicketFeeInfo (some zeroUint32) (some windowsToConsider) = .ok info →
        w ∈ info.FeeInfoWindows → selFee m w = .ok x → 0 ≤ x) → 0 < f) := by
  unfold findClosestFeeWindows at hres
  revert hres
  cases hq : t.hcdChainSvr.TicketFeeInfo (some zeroUint32) (some windowsToConsider) with
  | error e => intro hres; simp at hres
  | ok info =>
    dsimp only
    by_cases h0 : info.FeeInfoWindows.length = 0
    · rw [if_pos h0]
      intro hres
      simp at hres
    · rw [if_neg h0]
      cases hc : collectWindows t.hcdChainSvr t.activeNet.StakeDiffWindowSize d m 0
          info.FeeInfoWindows with
      | error e => intro hres; simp at hres
      | ok cands =>
        dsimp only
        cases hsort : goSortDPF cands with
        | nil =>
          intro hres
          rw [Prod.mk.injEq] at hres
          exact absurd hres.1.symm hf
        | cons c cs =>
          intro hres
          rw [Prod.mk.injEq] at hres
          have hcf : c.fee = f := hres.1
          have hmem : c ∈ cands :=
            (goSortDPF_perm cands).mem_iff.1 (hsort ▸ List.mem_cons_self c cs)
          obtain ⟨w, hw, hdr, _, hfee, _, _, _⟩ :=
            collectWindows_ok_mem t.hcdChainSvr t.activeNet.StakeDiffWindowSize d m 0
              info.FeeInfoWindows cands hc c hmem
          refine ⟨⟨info, w, rfl, hw, hcf ▸ hfee⟩, fun hnn => ?_⟩
          exact lt_of_le_of_ne (hnn info w f rfl hw (hcf ▸ hfee)) (Ne.symm hf)

theorem c10_provenance_amended_witness :
    (∃ info w, tC10w.hcdChainSvr.TicketFeeInfo (some zeroUint32) (some windowsToConsider) =
        .ok info ∧ w ∈ info.FeeInfoWindows ∧ selFee false w = .ok 9) ∧
    ((∀ info w x,
        tC10w.hcdChainSvr.TicketFeeInfo (some zeroUint32) (some windowsToConsider) =
          .ok info →
        w ∈ info.FeeInfoWindows → selFee false w = .ok x → 0 ≤ x) → 0 < (9 : Amount)) :=
  c10_provenance_amended tC10w 0 false 9 (by decide) (by decide)

end HcWallet

